import Mathlib

/-!
Verification development for the UnityScraper repository
(src/downloader.py, class UnityScraper).

The downloader is shallowly embedded: network, JSON parsing and the
filesystem are explicit oracles and state; every Python function of the
core (`_make_request`, `_save_json`, `_extract_filename`,
`download_covers`, `download_updates`, `scrape_multiple` and the two
per-task workers) is translated to a computable Lean definition.
Effects are modelled as values: the fetcher returns a trace of
attempt/wait events, the download pipeline returns the list of
filesystem operations it performs plus the boolean it computes, and a
separate interpreter applies those operations to a filesystem state.
-/

namespace UnityScraper

/-- A JSON value as produced by Python json parsing (numbers restricted
to integers; the repository only ever reads string/int/list/dict
fields). -/
inductive Json where
  | null : Json
  | bool (b : Bool) : Json
  | num (n : Int) : Json
  | str (s : String) : Json
  | arr (xs : List Json) : Json
  | obj (fields : List (String × Json)) : Json
deriving Repr

/-- The Python exceptions that can escape the embedded code:
AttributeError from calling dict methods on a non-dict, and OSError
from a failing directory creation. -/
inductive PyErr where
  | attributeError : PyErr
  | osError : PyErr
deriving Repr, DecidableEq

/-- Lookup of a key in a JSON object field list (Python dict indexing;
parsed JSON objects have unique keys, `find?` takes the first). -/
def jLookup (fields : List (String × Json)) (k : String) : Option Json :=
  (fields.find? (fun p => p.1 == k)).map (·.2)

/-- Python `d.get(k, default)`: raises AttributeError when the receiver
is not a dict. -/
def pyGetD (j : Json) (k : String) (d : Json) : Except PyErr Json :=
  match j with
  | .obj fields => .ok ((jLookup fields k).getD d)
  | _ => .error .attributeError

/-- Python `d.get(k)` (default None): `none` models Python None, which
also results when the stored JSON value is null. -/
def pyGetOpt (j : Json) (k : String) : Except PyErr (Option Json) :=
  match j with
  | .obj fields => .ok (jLookup fields k)
  | _ => .error .attributeError

/-- Python truthiness of a JSON value. -/
def pyTruthy : Json → Bool
  | .null => false
  | .bool b => b
  | .num n => n != 0
  | .str s => !s.isEmpty
  | .arr xs => !xs.isEmpty
  | .obj fields => !fields.isEmpty

/-- Truthiness of an optional value (Python None is falsy). -/
def optTruthy : Option Json → Bool
  | none => false
  | some j => pyTruthy j

/-- Python `v is None` for a `dict.get` result: missing key or stored
JSON null both give Python None. -/
def isPyNone : Option Json → Bool
  | none => true
  | some .null => true
  | some _ => false

/-- Python `str(v)` / f-string interpolation of a JSON value, as used to
build URLs and path segments (the repr of containers is abstracted; the
code only ever interpolates strings and integers). -/
def pyStr : Json → String
  | .null => "None"
  | .bool true => "True"
  | .bool false => "False"
  | .num n => toString n
  | .str s => s
  | .arr _ => "<list>"
  | .obj _ => "<dict>"

/-! ## HTTP responses and the retrying fetcher (`_make_request`) -/

/-- An HTTP response as observed by the code: final status code (after
the requests library followed any redirects), headers, body. -/
structure Response where
  status : Nat
  headers : List (String × String)
  body : String
deriving Repr, DecidableEq

/-- Outcome of one `session.get` call: either the call raised
(RequestException / Timeout) or it produced a response. -/
inductive AttemptOutcome where
  | raised : AttemptOutcome
  | response (r : Response) : AttemptOutcome
deriving Repr, DecidableEq

/-- requests `Response.raise_for_status` raises exactly for client and
server error codes, 400 ≤ status < 600. -/
def raiseForStatus (status : Nat) : Bool :=
  decide (400 ≤ status ∧ status < 600)

/-- MAX_RETRIES constant of UnityScraper. -/
def MAX_RETRIES : Nat := 3

/-- BACKOFF_FACTOR constant of UnityScraper. -/
def BACKOFF_FACTOR : Nat := 2

/-- MAX_BACKOFF constant of UnityScraper. -/
def MAX_BACKOFF : Nat := 30

/-- MAX_WORKERS constant of UnityScraper (the bound of the thread pool;
it does not influence the aggregated results). -/
def MAX_WORKERS : Nat := 4

/-- the sleep duration computed at a failed attempt:
`min(BACKOFF_FACTOR ** (attempt - 1), MAX_BACKOFF)`. -/
def backoffWait (attempt : Nat) : Nat :=
  min (BACKOFF_FACTOR ^ (attempt - 1)) MAX_BACKOFF

/-- Observable events of `_make_request`: issuing the n-th GET attempt,
and sleeping for a number of seconds. -/
inductive Event where
  | attempt (n : Nat) : Event
  | wait (seconds : Nat) : Event
deriving Repr, DecidableEq

/-- The result of the n-th attempt after the try block: `some r` when
`session.get` returned and `raise_for_status` did not raise, otherwise
`none` (transport error, timeout, or 4xx/5xx status — all caught by the
same except clause). -/
def attemptResult (net : Nat → AttemptOutcome) (n : Nat) : Option Response :=
  match net n with
  | .raised => none
  | .response r => if raiseForStatus r.status then none else some r

/-- Whether the n-th attempt fails for retry purposes. -/
def attemptFails (net : Nat → AttemptOutcome) (n : Nat) : Bool :=
  (attemptResult net n).isNone

/-- The retry loop of `_make_request`: `for attempt in
range(1, MAX_RETRIES + 1)`, with `fuel` iterations left and `attempt`
the current attempt number.  On a failed attempt the code logs, sleeps
`backoffWait attempt` seconds and continues; note the sleep also runs
after the final failed attempt, before the loop exits. -/
def make_requestAux (net : Nat → AttemptOutcome) :
    Nat → Nat → List Event × Option Response
  | 0, _ => ([], none)
  | fuel + 1, attempt =>
    match attemptResult net attempt with
    | some r => ([.attempt attempt], some r)
    | none =>
      let rest := make_requestAux net fuel (attempt + 1)
      (.attempt attempt :: .wait (backoffWait attempt) :: rest.1, rest.2)

/-- `_make_request`, abstracted over the network oracle `net` giving
each attempt's outcome for the requested URL: returns the trace of
events and `some response` on success or `none` when all retries were
exhausted. -/
def make_request (net : Nat → AttemptOutcome) : List Event × Option Response :=
  make_requestAux net MAX_RETRIES 1

/-- Number of GET attempts recorded in a trace. -/
def countAttempts (evs : List Event) : Nat :=
  evs.countP (fun e => match e with | .attempt _ => true | .wait _ => false)

/-- Number of waits recorded in a trace. -/
def countWaits (evs : List Event) : Nat :=
  evs.countP (fun e => match e with | .attempt _ => false | .wait _ => true)

/-! ## Filename extraction (`_extract_filename`) and name/path building -/

/-- The literal searched by the regex. -/
def filenamePat : List Char := "filename=".data

/-- Scan for the leftmost occurrence of `filename=` and return the
remainder of the string after it (the regex scanner of `re.findall`). -/
def afterFirstPat : List Char → Option (List Char)
  | [] => none
  | c :: cs =>
    if filenamePat.isPrefixOf (c :: cs) then some ((c :: cs).drop filenamePat.length)
    else afterFirstPat cs

/-- The capture of the first match of `filename="?(.+)"?`: after the
literal, the optional quote is consumed greedily when at least one
character is left for `(.+)`, which then captures the entire rest of
the single-line header (the trailing `"?` matches empty). -/
def regexCapture (s : List Char) : Option (List Char) :=
  match afterFirstPat s with
  | none => none
  | some [] => none
  | some (c :: cs) =>
    if c == '"' then (if cs.isEmpty then some [c] else some cs) else some (c :: cs)

/-- Python `str.strip()` whitespace (the ASCII whitespace characters). -/
def isPyWs (c : Char) : Bool :=
  c == ' ' || c == '\t' || c == '\n' || c == '\r' || c == '\x0b' || c == '\x0c'

/-- Strip characters satisfying `p` from both ends of a list. -/
def trimEnds (p : Char → Bool) (l : List Char) : List Char :=
  ((l.dropWhile p).reverse.dropWhile p).reverse

/-- Python `str.strip()` with no arguments: whitespace stripped from
both ends. -/
def pyStrip (s : String) : String := String.mk (trimEnds isPyWs s.data)

/-- `_extract_filename`: `None` for a missing or empty (falsy) header,
otherwise the first regex capture stripped of whitespace and then of
double quotes at both ends; `None` when the regex does not match. -/
def extract_filename (cd : Option String) : Option String :=
  match cd with
  | none => none
  | some s =>
    if s.data.isEmpty then none
    else
      match regexCapture s.data with
      | none => none
      | some cap => some (String.mk (trimEnds (fun c => c == '"') (trimEnds isPyWs cap)))

/-- Case-insensitive header lookup (requests uses a case-insensitive
dict for response headers). -/
def lowerStr (s : String) : String := String.mk (s.data.map Char.toLower)

/-- `resp.headers.get(k)` on the case-insensitive header dict. -/
def headerGet (hs : List (String × String)) (k : String) : Option String :=
  (hs.find? (fun p => lowerStr p.1 == lowerStr k)).map (·.2)

/-- `resp.headers.get(k, default)`. -/
def headerGetD (hs : List (String × String)) (k d : String) : String :=
  (headerGet hs k).getD d

/-- The cover extension fallback:
`content_type.split("/")[-1] if "/" in content_type else "jpg"`. -/
def mimeExt (ct : String) : String :=
  if ct.data.contains '/' then String.mk ((ct.data.reverse.takeWhile (fun c => c != '/')).reverse)
  else "jpg"

/-- The filename chosen for a downloaded cover: the Content-Disposition
name when extraction yields a truthy (non-empty) string, otherwise
`{cover_id}.{ext}` with the extension from the Content-Type header. -/
def coverFilename (coverId : String) (hs : List (String × String)) : String :=
  match extract_filename (headerGet hs "content-disposition") with
  | some f =>
    if f.data.isEmpty then coverId ++ "." ++ mimeExt (headerGetD hs "Content-Type" "") else f
  | none => coverId ++ "." ++ mimeExt (headerGetD hs "Content-Type" "")

/-- The filename chosen for a downloaded update:
`self._extract_filename(cd_header) or f"update_{tuid}.bin"`. -/
def updateFilename (tuid : String) (hs : List (String × String)) : String :=
  match extract_filename (headerGet hs "content-disposition") with
  | some f => if f.data.isEmpty then "update_" ++ tuid ++ ".bin" else f
  | none => "update_" ++ tuid ++ ".bin"

/-- BASE_DIR constant of UnityScraper. -/
def BASE_DIR : String := "unityscrape"

/-- Paths are lists of segments; rendering joins them with slashes. -/
def joinPath (p : List String) : String := String.intercalate "/" p

/-- The cover-info endpoint URL for a title:
`{cover_info}?titleid={title_id}`. -/
def coverInfoUrl (titleId : String) : String :=
  "http://xboxunity.net/Resources/Lib/CoverInfo.php?titleid=" ++ titleId

/-- The cover-fetch URL: `{cover_fetch}?size=large&cid={cover_id}`. -/
def coverFetchUrl (coverId : String) : String :=
  "http://xboxunity.net/Resources/Lib/Cover.php?size=large&cid=" ++ coverId

/-- The update-info endpoint URL: `{update_info}?titleid={title_id}`. -/
def updateInfoUrl (titleId : String) : String :=
  "http://xboxunity.net/Resources/Lib/TitleUpdateInfo.php?titleid=" ++ titleId

/-- The update-fetch URL: `{update_fetch}?tuid={tuid}`. -/
def updateFetchUrl (tuid : String) : String :=
  "http://xboxunity.net/Resources/Lib/TitleUpdate.php?tuid=" ++ tuid

/-- Directory segments for one update binary:
`BASE_DIR / title_id / str(media_id) / f"updateversion{version}"`. -/
def updateOutDir (titleId : String) (mediaId version : Json) : List String :=
  [BASE_DIR, titleId, pyStr mediaId, "updateversion" ++ pyStr version]

/-! ## Filesystem model -/

/-- File contents: raw response bytes or a serialized JSON document
(the exact serialization of `json.dump` is abstracted). -/
inductive FileData where
  | bytes (s : String) : FileData
  | jsonDoc (j : Json) : FileData
deriving Repr

/-- A filesystem state: the set of existing directories and files
(lists with possible duplicates; membership is what matters). -/
structure FS where
  dirs : List (List String)
  files : List (List String × FileData)
deriving Repr

/-- The empty filesystem. -/
def FS.empty : FS := ⟨[], []⟩

/-- One filesystem mutation performed by the code. -/
inductive FSOp where
  | mkdir (p : List String) : FSOp
  | write (p : List String) (d : FileData) : FSOp
deriving Repr

/-- The nonempty prefixes of a path (`mkdir(parents=True)` creates all
of them). -/
def prefixesOf (p : List String) : List (List String) :=
  (List.range p.length).map (fun i => p.take (i + 1))

/-- Apply one filesystem operation. -/
def applyOp (fs : FS) : FSOp → FS
  | .mkdir p => { fs with dirs := prefixesOf p ++ fs.dirs }
  | .write p d => { fs with files := (p, d) :: fs.files }

/-- Apply a sequence of filesystem operations in order. -/
def applyOps (fs : FS) (ops : List FSOp) : FS := ops.foldl applyOp fs

/-! ## Task outcomes and the dispatch aggregation -/

/-- The outcome of one dispatched task as seen at `future.result()`:
the returned boolean, or an exception raised inside the task. -/
inductive TaskOutcome where
  | ok (b : Bool) : TaskOutcome
  | exn : TaskOutcome
deriving Repr, DecidableEq

/-- One step of the aggregation loop: `result = future.result();
if not result: success = False`, with `except Exception:
success = False`. -/
def aggStep (success : Bool) : TaskOutcome → Bool
  | .ok true => success
  | .ok false => false
  | .exn => false

/-- The aggregation over all completed futures, starting from
`success = True`; every future is consumed, no short-circuit. -/
def aggregate (outs : List TaskOutcome) : Bool := outs.foldl aggStep true

/-- Whether a single task outcome counts as success. -/
def isTaskSuccess : TaskOutcome → Bool
  | .ok true => true
  | .ok false => false
  | .exn => false

/-! ## The environment and the embedded downloader -/

/-- The ambient oracles: the network (per URL, per attempt number), the
JSON parser of `resp.json()` (`none` for a body that is not valid
JSON), and fault injection for directory creation and file writing. -/
structure Env where
  net : String → Nat → AttemptOutcome
  parseJson : String → Option Json
  mkdirFails : List String → Bool
  writeFails : List String → Bool

/-- `_save_json`: creates `BASE_DIR/title_id` (OUTSIDE the try block,
so a creation failure raises OSError out of the caller) and then
writes `{json_type}_data.json` inside a try/except that logs and
swallows the write failure. Returns the filesystem operations
performed. -/
def save_json (env : Env) (titleId : String) (payload : Json) (jsonType : String) :
    Except PyErr (List FSOp) :=
  let outDir := [BASE_DIR, titleId]
  if env.mkdirFails outDir then .error .osError
  else
    let path := outDir ++ [jsonType ++ "_data.json"]
    if env.writeFails path then .ok [.mkdir outDir]
    else .ok [.mkdir outDir, .write path (.jsonDoc payload)]

/-- `_download_single_cover`: the task outcome, the URLs requested, and
the filesystem operations performed (a failing write leaves no file
operation; the partially written file is abstracted away). -/
def download_single_cover (env : Env) (titleId : String) (cover : Json) :
    TaskOutcome × List String × List FSOp :=
  match pyGetOpt cover "CoverID" with
  | .error _ => (.exn, [], [])
  | .ok cid? =>
    if !optTruthy cid? then (.ok true, [], [])
    else
      match (make_request (env.net (coverFetchUrl (pyStr (cid?.getD .null))))).2 with
      | none => (.ok false, [coverFetchUrl (pyStr (cid?.getD .null))], [])
      | some r =>
        if env.writeFails [BASE_DIR, titleId, "covers",
            coverFilename (pyStr (cid?.getD .null)) r.headers] then
          (.ok false, [coverFetchUrl (pyStr (cid?.getD .null))], [])
        else
          (.ok true, [coverFetchUrl (pyStr (cid?.getD .null))],
           [.write [BASE_DIR, titleId, "covers",
              coverFilename (pyStr (cid?.getD .null)) r.headers] (.bytes r.body)])

/-- `_download_single_update`: outcome, requested URLs, filesystem
operations. The per-task `out_dir.mkdir` is not inside the try block,
so its failure raises inside the worker and surfaces as an exception
at `future.result()`. -/
def download_single_update (env : Env) (titleId : String) (media upd : Json) :
    TaskOutcome × List String × List FSOp :=
  match pyGetOpt media "MediaID", pyGetOpt upd "TitleUpdateID", pyGetOpt upd "Version" with
  | .ok mid?, .ok tuid?, .ok ver? =>
    if !optTruthy mid? || !optTruthy tuid? || isPyNone ver? then (.ok true, [], [])
    else
      match (make_request (env.net (updateFetchUrl (pyStr (tuid?.getD .null))))).2 with
      | none => (.ok false, [updateFetchUrl (pyStr (tuid?.getD .null))], [])
      | some r =>
        if env.mkdirFails (updateOutDir titleId (mid?.getD .null) (ver?.getD .null)) then
          (.exn, [updateFetchUrl (pyStr (tuid?.getD .null))], [])
        else
          if env.writeFails (updateOutDir titleId (mid?.getD .null) (ver?.getD .null) ++
              [updateFilename (pyStr (tuid?.getD .null)) r.headers]) then
            (.ok false, [updateFetchUrl (pyStr (tuid?.getD .null))],
             [.mkdir (updateOutDir titleId (mid?.getD .null) (ver?.getD .null))])
          else
            (.ok true, [updateFetchUrl (pyStr (tuid?.getD .null))],
             [.mkdir (updateOutDir titleId (mid?.getD .null) (ver?.getD .null)),
              .write (updateOutDir titleId (mid?.getD .null) (ver?.getD .null) ++
                [updateFilename (pyStr (tuid?.getD .null)) r.headers]) (.bytes r.body)])
  | _, _, _ => (.exn, [], [])

/-- The dict comprehension building `future_to_cover` evaluates
`cover.get("CoverID")` for every entry in the main thread; a non-dict
entry raises AttributeError out of `download_covers`. -/
def checkCoverIdents : List Json → Except PyErr Unit
  | [] => .ok ()
  | c :: cs =>
    match pyGetOpt c "CoverID" with
    | .error e => .error e
    | .ok _ => checkCoverIdents cs

/-- Task collection of `download_updates`: for each media entry,
`media.get("Updates", [])` (AttributeError on a non-dict entry); a
non-list value is skipped with `continue`, a list contributes a task
per element. -/
def collectUpdateTasks : List Json → Except PyErr (List (Json × Json))
  | [] => .ok []
  | m :: ms =>
    match pyGetD m "Updates" (.arr []) with
    | .error e => .error e
    | .ok ud =>
      match collectUpdateTasks ms with
      | .error e => .error e
      | .ok rest =>
        match ud with
        | .arr us => .ok (us.map (fun u => (m, u)) ++ rest)
        | _ => .ok rest

/-- Building `future_to_ident` evaluates `media.get("MediaID")` and
`upd.get("TitleUpdateID")` in the main thread for every task. -/
def checkUpdateIdents : List (Json × Json) → Except PyErr Unit
  | [] => .ok ()
  | (m, u) :: ts =>
    match pyGetOpt m "MediaID" with
    | .error e => .error e
    | .ok _ =>
      match pyGetOpt u "TitleUpdateID" with
      | .error e => .error e
      | .ok _ => checkUpdateIdents ts

/-- The covers phase of `download_covers` for one title: the returned
boolean together with the filesystem operations performed, or the
Python exception that escapes. Fetch failure and JSON parse failure
return `false` before anything is persisted; then the metadata is
saved, a falsy or non-list `Covers` field returns `true`, otherwise
the `covers/` directory is created (uncaught on failure) and the
per-cover tasks are dispatched and aggregated. -/
def cover_phase (env : Env) (titleId : String) : Except PyErr (Bool × List FSOp) :=
  match (make_request (env.net (coverInfoUrl titleId))).2 with
  | none => .ok (false, [])
  | some resp =>
    match env.parseJson resp.body with
    | none => .ok (false, [])
    | some coversData =>
      match save_json env titleId coversData "covers" with
      | .error e => .error e
      | .ok saveOps =>
        match pyGetD coversData "Covers" (.arr []) with
        | .error e => .error e
        | .ok (.arr coversList) =>
          if coversList.isEmpty then .ok (true, saveOps)
          else if env.mkdirFails [BASE_DIR, titleId, "covers"] then .error .osError
          else
            match checkCoverIdents coversList with
            | .error e => .error e
            | .ok _ =>
              .ok (aggregate ((coversList.map (download_single_cover env titleId)).map (·.1)),
                   saveOps ++ .mkdir [BASE_DIR, titleId, "covers"] ::
                     (coversList.map (download_single_cover env titleId)).flatMap (·.2.2))
        | .ok _ => .ok (true, saveOps)

/-- The updates phase of `download_updates` for one title, mirroring
the source: fetch, parse, save metadata, read `MediaIDS`, collect
(media, update) tasks, dispatch and aggregate. -/
def update_phase (env : Env) (titleId : String) : Except PyErr (Bool × List FSOp) :=
  match (make_request (env.net (updateInfoUrl titleId))).2 with
  | none => .ok (false, [])
  | some resp =>
    match env.parseJson resp.body with
    | none => .ok (false, [])
    | some updatesData =>
      match save_json env titleId updatesData "updates" with
      | .error e => .error e
      | .ok saveOps =>
        match pyGetD updatesData "MediaIDS" (.arr []) with
        | .error e => .error e
        | .ok (.arr mediaList) =>
          if mediaList.isEmpty then .ok (true, saveOps)
          else
            match collectUpdateTasks mediaList with
            | .error e => .error e
            | .ok tasks =>
              if tasks.isEmpty then .ok (true, saveOps)
              else
                match checkUpdateIdents tasks with
                | .error e => .error e
                | .ok _ =>
                  .ok (aggregate
                        ((tasks.map (fun t => download_single_update env titleId t.1 t.2)).map
                          (·.1)),
                       saveOps ++
                         (tasks.map (fun t => download_single_update env titleId t.1 t.2)).flatMap
                           (·.2.2))
        | .ok _ => .ok (true, saveOps)

/-- `download_covers` applied to a filesystem state. -/
def download_covers (env : Env) (titleId : String) (fs : FS) : Except PyErr (Bool × FS) :=
  (cover_phase env titleId).map (fun r => (r.1, applyOps fs r.2))

/-- `download_updates` applied to a filesystem state. -/
def download_updates (env : Env) (titleId : String) (fs : FS) : Except PyErr (Bool × FS) :=
  (update_phase env titleId).map (fun r => (r.1, applyOps fs r.2))

/-- The boolean returned by `download_covers` (it does not depend on
the filesystem state). -/
def coversOk (env : Env) (titleId : String) : Except PyErr Bool :=
  (cover_phase env titleId).map (·.1)

/-- The boolean returned by `download_updates`. -/
def updatesOk (env : Env) (titleId : String) : Except PyErr Bool :=
  (update_phase env titleId).map (·.1)

/-- Whether an embedded computation returned normally. -/
def exOk {α : Type} : Except PyErr α → Bool
  | .ok _ => true
  | .error _ => false

/-- The loop of `scrape_multiple`: strip each id, skip falsy (empty)
ones, run covers then updates unconditionally, and append the stripped
id to the failure list when not both phases succeeded. -/
def scrapeGo (env : Env) : List String → FS → List String → Except PyErr (List String × FS)
  | [], fs, failed => .ok (failed, fs)
  | tid :: rest, fs, failed =>
    let t := pyStrip tid
    if t.data.isEmpty then scrapeGo env rest fs failed
    else
      match download_covers env t fs with
      | .error e => .error e
      | .ok r1 =>
        match download_updates env t r1.2 with
        | .error e => .error e
        | .ok r2 =>
          scrapeGo env rest r2.2 (if r1.1 && r2.1 then failed else failed ++ [t])

/-- `scrape_multiple`: the list of failed title ids and the final
filesystem state. -/
def scrape_multiple (env : Env) (titleIds : List String) (fs : FS) :
    Except PyErr (List String × FS) :=
  scrapeGo env titleIds fs []

/-! ## Helper lemmas -/

lemma attemptResult_of_fails {net : Nat → AttemptOutcome} {n : Nat}
    (h : attemptFails net n = true) : attemptResult net n = none :=
  Option.isNone_iff_eq_none.mp h

@[simp] lemma applyOps_nil (fs : FS) : applyOps fs [] = fs := rfl

@[simp] lemma applyOps_cons (fs : FS) (op : FSOp) (ops : List FSOp) :
    applyOps fs (op :: ops) = applyOps (applyOp fs op) ops := rfl

lemma foldl_aggStep (outs : List TaskOutcome) :
    ∀ s : Bool, outs.foldl aggStep s = (s && outs.all isTaskSuccess) := by
  induction outs with
  | nil => intro s; simp
  | cons o os ih =>
    intro s
    rw [List.foldl_cons, ih, List.all_cons]
    cases o with
    | ok b => cases b <;> simp [aggStep, isTaskSuccess, Bool.and_assoc]
    | exn => simp [aggStep, isTaskSuccess]

lemma aggregate_eq_all (outs : List TaskOutcome) :
    aggregate outs = outs.all isTaskSuccess := by
  simpa using foldl_aggStep outs true

/-! ## Sample networks used at concrete inputs -/

/-- A network whose every attempt yields a 304 Not Modified response:
a non-2xx status that `raise_for_status` does not raise on. -/
def net304 : Nat → AttemptOutcome := fun _ => .response ⟨304, [], "x"⟩

/-- A network whose every attempt raises a transport error. -/
def netRaise : Nat → AttemptOutcome := fun _ => .raised

/-- A network failing twice, then succeeding on the third attempt. -/
def netThird : Nat → AttemptOutcome :=
  fun n => if n = 3 then .response ⟨200, [], "hi"⟩ else .raised

/-! ## Claims -/

/-- C1, counterexample: the claim treats every non-2xx status as a
failed attempt that is retried, but `_make_request` only catches what
`raise_for_status` raises (4xx/5xx).  On a URL whose every GET returns
status 304 — a non-2xx status, as 304 is not in [200, 300) — the claim
predicts three attempts and a `None` result, yet the code returns the
304 response from the very first attempt. -/
theorem C1_counterexample :
    net304 1 = .response ⟨304, [], "x"⟩ ∧
    ¬(200 ≤ 304 ∧ (304 : Nat) < 300) ∧
    (make_request net304).2 = some ⟨304, [], "x"⟩ ∧
    countAttempts (make_request net304).1 = 1 := by
  refine ⟨rfl, by decide, rfl, rfl⟩

/-- C1, amended: with a failed attempt meaning a transport error,
timeout, or a 4xx/5xx status (exactly what `raise_for_status` raises),
the fetcher makes exactly MAX_RETRIES = 3 attempts when all attempts
fail and reports the exhaustion as a returned `none` rather than
raising; and when some attempt k within the retry budget succeeds
(after the earlier ones failed), its response is returned after
exactly k attempts. -/
theorem C1_amended_holds (net : Nat → AttemptOutcome) :
    ((∀ n, 1 ≤ n → n ≤ MAX_RETRIES → attemptFails net n = true) →
      (make_request net).2 = none ∧ countAttempts (make_request net).1 = MAX_RETRIES)
    ∧ (∀ k r, 1 ≤ k → k ≤ MAX_RETRIES →
        (∀ n, 1 ≤ n → n < k → attemptFails net n = true) →
        attemptResult net k = some r →
        (make_request net).2 = some r ∧ countAttempts (make_request net).1 = k) := by
  constructor
  · intro h
    have h1 := attemptResult_of_fails (h 1 (by decide) (by decide))
    have h2 := attemptResult_of_fails (h 2 (by decide) (by decide))
    have h3 := attemptResult_of_fails (h 3 (by decide) (by decide))
    simp [make_request, MAX_RETRIES, make_requestAux, h1, h2, h3, countAttempts,
      List.countP_cons, List.countP_nil]
  · intro k r hk1 hkM hprev hres
    have hk3 : k ≤ 3 := hkM
    interval_cases k
    · simp [make_request, MAX_RETRIES, make_requestAux, hres, countAttempts,
        List.countP_cons, List.countP_nil]
    · have h1 := attemptResult_of_fails (hprev 1 (by decide) (by decide))
      simp [make_request, MAX_RETRIES, make_requestAux, h1, hres, countAttempts,
        List.countP_cons, List.countP_nil]
    · have h1 := attemptResult_of_fails (hprev 1 (by decide) (by decide))
      have h2 := attemptResult_of_fails (hprev 2 (by decide) (by decide))
      simp [make_request, MAX_RETRIES, make_requestAux, h1, h2, hres, countAttempts,
        List.countP_cons, List.countP_nil]

/-- C1 witness: on a network that always raises, three attempts happen
and `none` is returned; on a network succeeding at the third attempt,
that response comes back after exactly three attempts. -/
theorem C1_witness :
    ((make_request netRaise).2 = none ∧
      countAttempts (make_request netRaise).1 = MAX_RETRIES) ∧
    ((make_request netThird).2 = some ⟨200, [], "hi"⟩ ∧
      countAttempts (make_request netThird).1 = 3) :=
  ⟨(C1_amended_holds netRaise).1 (fun _ _ _ => rfl),
   (C1_amended_holds netThird).2 3 ⟨200, [], "hi"⟩ (by decide) (by decide)
     (fun n h1 h3 => by interval_cases n <;> rfl) rfl⟩

/-- C2, counterexample: in a fully exhausted fetch the code sleeps
after EVERY failed attempt, including the last one — the trace ends
with a wait event (4 seconds after attempt 3) that no further attempt
follows, and there are 3 waits for 3 attempts where the claim
("waits occur only between consecutive attempts") allows only 2. -/
theorem C2_counterexample :
    (make_request netRaise).1 =
      [.attempt 1, .wait 1, .attempt 2, .wait 2, .attempt 3, .wait 4] ∧
    countWaits (make_request netRaise).1 = 3 ∧
    countAttempts (make_request netRaise).1 = 3 ∧
    (make_request netRaise).1.getLast? = some (.wait 4) := by decide

/-- C2, amended: after every failed attempt n (n = 1..MAX_RETRIES) the
fetcher waits exactly min(BACKOFF_FACTOR^(n-1), MAX_BACKOFF) seconds
(1, 2, 4 seconds) — including after the final failed attempt, so in a
fully exhausted fetch there are MAX_RETRIES waits and the last wait is
followed by no attempt. -/
theorem C2_amended_holds (net : Nat → AttemptOutcome)
    (h : ∀ n, 1 ≤ n → n ≤ MAX_RETRIES → attemptFails net n = true) :
    (make_request net).1 =
      [.attempt 1, .wait (backoffWait 1), .attempt 2, .wait (backoffWait 2),
       .attempt 3, .wait (backoffWait 3)] ∧
    backoffWait 1 = min (BACKOFF_FACTOR ^ 0) MAX_BACKOFF ∧
    backoffWait 2 = min (BACKOFF_FACTOR ^ 1) MAX_BACKOFF ∧
    backoffWait 3 = min (BACKOFF_FACTOR ^ 2) MAX_BACKOFF ∧
    backoffWait 1 = 1 ∧ backoffWait 2 = 2 ∧ backoffWait 3 = 4 := by
  have h1 := attemptResult_of_fails (h 1 (by decide) (by decide))
  have h2 := attemptResult_of_fails (h 2 (by decide) (by decide))
  have h3 := attemptResult_of_fails (h 3 (by decide) (by decide))
  refine ⟨?_, by decide, by decide, by decide, by decide, by decide, by decide⟩
  simp [make_request, MAX_RETRIES, make_requestAux, h1, h2, h3]

/-- C2 witness: the amended statement at the always-raising network. -/
theorem C2_witness :
    (make_request netRaise).1 =
      [.attempt 1, .wait (backoffWait 1), .attempt 2, .wait (backoffWait 2),
       .attempt 3, .wait (backoffWait 3)] ∧
    backoffWait 1 = min (BACKOFF_FACTOR ^ 0) MAX_BACKOFF ∧
    backoffWait 2 = min (BACKOFF_FACTOR ^ 1) MAX_BACKOFF ∧
    backoffWait 3 = min (BACKOFF_FACTOR ^ 2) MAX_BACKOFF ∧
    backoffWait 1 = 1 ∧ backoffWait 2 = 2 ∧ backoffWait 3 = 4 :=
  C2_amended_holds netRaise (fun _ _ _ => rfl)

/-- C3: the dispatch aggregation of `download_covers` and
`download_updates` — starting from `success = True` and clearing it on
every falsy or raising `future.result()` — equals the logical AND of
the individual task outcomes, is false exactly when the number K of
failed tasks is positive, is invariant under any permutation of the
completion order, and every submitted task contributes exactly one
outcome (nothing is cancelled or skipped by a sibling failure). -/
theorem C3_dispatch_aggregation (outs outs2 : List TaskOutcome) (hp : outs.Perm outs2) :
    aggregate outs = outs.all isTaskSuccess ∧
    (aggregate outs = false ↔ 0 < outs.countP (fun o => !isTaskSuccess o)) ∧
    aggregate outs = aggregate outs2 ∧
    (∀ (env : Env) (t : String) (covers : List Json),
      ((covers.map (download_single_cover env t)).map (·.1)).length = covers.length) := by
  refine ⟨aggregate_eq_all outs, ?_, ?_, by intro env t covers; simp⟩
  · rw [aggregate_eq_all]
    constructor
    · intro hf
      obtain ⟨x, hx, hpx⟩ := List.all_eq_false.mp hf
      exact List.countP_pos_iff.mpr ⟨x, hx, by simp [Bool.not_eq_true] at hpx; simp [hpx]⟩
    · intro hpos
      obtain ⟨x, hx, hpx⟩ := List.countP_pos_iff.mp hpos
      exact List.all_eq_false.mpr ⟨x, hx, by simpa using hpx⟩
  · rw [aggregate_eq_all, aggregate_eq_all]
    cases hall : outs2.all isTaskSuccess
    · obtain ⟨x, hx, hpx⟩ := List.all_eq_false.mp hall
      exact List.all_eq_false.mpr ⟨x, hp.mem_iff.mpr hx, hpx⟩
    · exact List.all_eq_true.mpr (fun x hx => List.all_eq_true.mp hall x (hp.mem_iff.mp hx))

/-- C3 witness: two tasks of which one fails, in both completion
orders: the aggregate is false; with zero failures it would be true. -/
theorem C3_witness :
    aggregate [TaskOutcome.ok true, TaskOutcome.ok false] =
      [TaskOutcome.ok true, TaskOutcome.ok false].all isTaskSuccess ∧
    (aggregate [TaskOutcome.ok true, TaskOutcome.ok false] = false ↔
      0 < [TaskOutcome.ok true, TaskOutcome.ok false].countP (fun o => !isTaskSuccess o)) ∧
    aggregate [TaskOutcome.ok true, TaskOutcome.ok false] =
      aggregate [TaskOutcome.ok false, TaskOutcome.ok true] ∧
    (∀ (env : Env) (t : String) (covers : List Json),
      ((covers.map (download_single_cover env t)).map (·.1)).length = covers.length) :=
  C3_dispatch_aggregation [TaskOutcome.ok true, TaskOutcome.ok false]
    [TaskOutcome.ok false, TaskOutcome.ok true] (by decide)

/-- Whether a phase result is a normally returned `True`. -/
def phaseOkB : Except PyErr Bool → Bool
  | .ok true => true
  | .ok false => false
  | .error _ => false

/-- The identifiers actually processed by `scrape_multiple`: input
order, stripped, empty ones dropped. -/
def procIds (ids : List String) : List String :=
  (ids.map pyStrip).filter (fun t => !t.data.isEmpty)

/-- The failure list predicted by the specification: the processed
identifiers, in input order, for which not both phases returned
true. -/
def failedIds (env : Env) (ids : List String) : List String :=
  (procIds ids).filter
    (fun t => !(phaseOkB (coversOk env t) && phaseOkB (updatesOk env t)))

lemma phaseOkB_ok (b : Bool) : phaseOkB (.ok b) = b := by cases b <;> rfl

lemma scrapeGo_spec (env : Env) :
    ∀ (ids : List String) (fs : FS) (acc : List String),
      (∀ t ∈ procIds ids, exOk (coversOk env t) = true ∧ exOk (updatesOk env t) = true) →
      ∃ fs2, scrapeGo env ids fs acc = .ok (acc ++ failedIds env ids, fs2) := by
  intro ids
  induction ids with
  | nil =>
    intro fs acc _
    exact ⟨fs, by simp [scrapeGo, failedIds, procIds]⟩
  | cons tid rest ih =>
    intro fs acc h
    by_cases he : (pyStrip tid).data.isEmpty
    · have hproc : procIds (tid :: rest) = procIds rest := by
        simp [procIds, he]
      have hfail : failedIds env (tid :: rest) = failedIds env rest := by
        simp [failedIds, hproc]
      obtain ⟨fs2, hrec⟩ := ih fs acc (by rw [hproc] at h; exact h)
      exact ⟨fs2, by simpa [scrapeGo, he, hfail] using hrec⟩
    · have hmem : pyStrip tid ∈ procIds (tid :: rest) := by
        simp [procIds, he]
      obtain ⟨hc, hu⟩ := h (pyStrip tid) hmem
      obtain ⟨p, hcp⟩ : ∃ p, cover_phase env (pyStrip tid) = .ok p := by
        cases hcp : cover_phase env (pyStrip tid) with
        | ok p => exact ⟨p, rfl⟩
        | error e => rw [coversOk, hcp] at hc; simp [Except.map, exOk] at hc
      obtain ⟨q, hup⟩ : ∃ q, update_phase env (pyStrip tid) = .ok q := by
        cases hup : update_phase env (pyStrip tid) with
        | ok q => exact ⟨q, rfl⟩
        | error e => rw [updatesOk, hup] at hu; simp [Except.map, exOk] at hu
      have hproc : procIds (tid :: rest) = pyStrip tid :: procIds rest := by
        simp [procIds, he]
      have h2 : ∀ t ∈ procIds rest,
          exOk (coversOk env t) = true ∧ exOk (updatesOk env t) = true := by
        intro t ht
        exact h t (by rw [hproc]; exact List.mem_cons_of_mem _ ht)
      have hcOk : phaseOkB (coversOk env (pyStrip tid)) = p.1 := by
        rw [coversOk, hcp]; exact phaseOkB_ok p.1
      have huOk : phaseOkB (updatesOk env (pyStrip tid)) = q.1 := by
        rw [updatesOk, hup]; exact phaseOkB_ok q.1
      have hfail : failedIds env (tid :: rest) =
          (if p.1 && q.1 then [] else [pyStrip tid]) ++ failedIds env rest := by
        rw [failedIds, hproc, List.filter_cons]
        rw [failedIds]
        cases hb : p.1 && q.1 <;> simp [hcOk, huOk, hb]
      set acc2 := (if p.1 && q.1 then acc else acc ++ [pyStrip tid]) with hacc2
      obtain ⟨fs2, hrec⟩ :=
        ih (applyOps (applyOps fs p.2) q.2) acc2 h2
      refine ⟨fs2, ?_⟩
      have hstep : scrapeGo env (tid :: rest) fs acc =
          scrapeGo env rest (applyOps (applyOps fs p.2) q.2) acc2 := by
        simp [scrapeGo, he, download_covers, download_updates, hcp, hup, Except.map, hacc2]
      rw [hstep, hrec, hfail, hacc2]
      cases hb : p.1 && q.1 <;> simp

/-- C4: `scrape_multiple` trims every identifier, drops the ones that
are empty after trimming, processes the remaining ones in input order,
runs the covers phase and then the updates phase for each (the updates
phase runs regardless of the covers result — the failure list depends
on both phase booleans, each computed unconditionally), and returns
exactly the processed identifiers, in input order, for which not both
phases returned true.  The hypothesis states that each processed
identifier's two phases return a boolean normally. -/
theorem C4_scrape_order (env : Env) (ids : List String) (fs : FS)
    (h : ∀ t ∈ procIds ids, exOk (coversOk env t) = true ∧ exOk (updatesOk env t) = true) :
    ∃ fs2, scrape_multiple env ids fs = .ok (failedIds env ids, fs2) := by
  simpa [scrape_multiple] using scrapeGo_spec env ids fs [] h

/-- An environment where title A succeeds fully (empty cover and
update metadata) and title B fails its updates phase (the update-info
fetch raises on every attempt). -/
def envAB : Env :=
  { net := fun u _ =>
      if u = updateInfoUrl "B" then .raised else .response ⟨200, [], "EMPTY"⟩
    parseJson := fun s =>
      if s = "EMPTY" then some (.obj [("Covers", .arr []), ("MediaIDS", .arr [])]) else none
    mkdirFails := fun _ => false
    writeFails := fun _ => false }

/-- C4 witness: scrapeAll with A fully succeeding and B failing its
update phase returns exactly B. -/
theorem C4_witness :
    ∃ fs2, scrape_multiple envAB ["A", "B"] FS.empty = .ok (["B"], fs2) := by
  have h := C4_scrape_order envAB ["A", "B"] FS.empty (by decide)
  rwa [show failedIds envAB ["A", "B"] = ["B"] from by decide] at h

/-- C5: when the metadata body is not valid JSON, the phase returns
false and the filesystem is returned untouched — in particular the
`covers_data.json` / `updates_data.json` metadata file is not created:
persistence happens only after a successful parse. -/
theorem C5_parse_failure_persists_nothing (env : Env) (t : String) (fs : FS)
    (rc ru : Response)
    (hc : (make_request (env.net (coverInfoUrl t))).2 = some rc)
    (hu : (make_request (env.net (updateInfoUrl t))).2 = some ru)
    (hpc : env.parseJson rc.body = none)
    (hpu : env.parseJson ru.body = none) :
    download_covers env t fs = .ok (false, fs) ∧
    download_updates env t fs = .ok (false, fs) := by
  constructor
  · simp [download_covers, cover_phase, hc, hpc, Except.map]
  · simp [download_updates, update_phase, hu, hpu, Except.map]

/-- An environment whose metadata endpoints answer 200 with a body
that is not valid JSON. -/
def envBadJson : Env :=
  { net := fun _ _ => .response ⟨200, [], "junk"⟩
    parseJson := fun _ => none
    mkdirFails := fun _ => false
    writeFails := fun _ => false }

/-- C5 witness: with a non-JSON body, both phases return false on the
empty filesystem and leave it empty (no metadata file exists). -/
theorem C5_witness :
    download_covers envBadJson "T" FS.empty = .ok (false, FS.empty) ∧
    download_updates envBadJson "T" FS.empty = .ok (false, FS.empty) :=
  C5_parse_failure_persists_nothing envBadJson "T" FS.empty
    ⟨200, [], "junk"⟩ ⟨200, [], "junk"⟩ rfl rfl rfl rfl

/-- The condition under which a looked-up list field yields zero items
in the source: the value (after the `.get(key, [])` default) is not a
list, or is an empty list. -/
def zeroItems : Json → Bool
  | .arr xs => xs.isEmpty
  | _ => true

lemma mem_dirs_applyOps (p : List String) :
    ∀ (ops : List FSOp) (fs : FS),
      (p ∈ (applyOps fs ops).dirs ↔
        p ∈ fs.dirs ∨ ∃ q, FSOp.mkdir q ∈ ops ∧ p ∈ prefixesOf q) := by
  intro ops
  induction ops with
  | nil => intro fs; simp
  | cons op rest ih =>
    intro fs
    rw [applyOps_cons, ih]
    cases op with
    | mkdir q0 =>
      simp only [applyOp, List.mem_append, List.mem_cons]
      constructor
      · rintro (⟨hp | hp⟩ | ⟨q, hq, hpq⟩)
        · exact Or.inr ⟨q0, Or.inl rfl, hp⟩
        · exact Or.inl hp
        · exact Or.inr ⟨q, Or.inr hq, hpq⟩
      · rintro (hp | ⟨q, hq | hq, hpq⟩)
        · exact Or.inl (Or.inr hp)
        · cases hq
          exact Or.inl (Or.inl hpq)
        · exact Or.inr ⟨q, hq, hpq⟩
    | write q0 d =>
      simp only [applyOp, List.mem_cons]
      constructor
      · rintro (hp | ⟨q, hq, hpq⟩)
        · exact Or.inl hp
        · exact Or.inr ⟨q, Or.inr hq, hpq⟩
      · rintro (hp | ⟨q, hq | hq, hpq⟩)
        · exact Or.inl hp
        · cases hq
        · exact Or.inr ⟨q, hq, hpq⟩

lemma prefixesOf_pair (a b : String) : prefixesOf [a, b] = [[a], [a, b]] := rfl

lemma prefixesOf_triple (a b c : String) :
    prefixesOf [a, b, c] = [[a], [a, b], [a, b, c]] := rfl

lemma covers_dir_outside_base (t : String) :
    [BASE_DIR, t, "covers"] ∉ prefixesOf [BASE_DIR, t] := by
  rw [prefixesOf_pair]
  simp

lemma save_json_ok (env : Env) (t : String) (payload : Json) (k : String)
    (hm : env.mkdirFails [BASE_DIR, t] = false) :
    ∃ ops, save_json env t payload k = .ok ops ∧
      (∀ q, FSOp.mkdir q ∈ ops → q = [BASE_DIR, t]) := by
  rw [save_json]
  simp only [hm, if_false, Bool.false_eq_true]
  by_cases hw : env.writeFails ([BASE_DIR, t] ++ [k ++ "_data.json"]) = true
  · refine ⟨[FSOp.mkdir [BASE_DIR, t]], by rw [if_pos hw], ?_⟩
    intro q hq
    simpa using hq
  · refine ⟨[FSOp.mkdir [BASE_DIR, t],
      FSOp.write ([BASE_DIR, t] ++ [k ++ "_data.json"]) (.jsonDoc payload)],
      by rw [if_neg hw], ?_⟩
    intro q hq
    simpa using hq

lemma collectUpdateTasks_nil_of_zero (medias : List Json)
    (h : ∀ m ∈ medias, ∃ mf, m = Json.obj mf ∧
      zeroItems ((jLookup mf "Updates").getD (.arr [])) = true) :
    collectUpdateTasks medias = .ok [] := by
  induction medias with
  | nil => rfl
  | cons m ms ih =>
    obtain ⟨mf, hm, hz⟩ := h m (List.mem_cons_self m ms)
    subst hm
    rw [collectUpdateTasks]
    have hget : pyGetD (Json.obj mf) "Updates" (.arr []) =
        .ok ((jLookup mf "Updates").getD (.arr [])) := rfl
    rw [hget, ih (fun x hx => h x (List.mem_cons_of_mem _ hx))]
    cases hud : (jLookup mf "Updates").getD (.arr []) with
    | arr us =>
      rw [hud] at hz
      simp only [zeroItems, List.isEmpty_iff] at hz
      subst hz
      rfl
    | null => rfl
    | bool b => rfl
    | num n => rfl
    | str s => rfl
    | obj fields => rfl

/-- An environment whose cover-info endpoint answers with a body that
parses to a JSON array (valid JSON, but not an object). -/
def envArrPayload : Env :=
  { net := fun _ _ => .response ⟨200, [], "ARR"⟩
    parseJson := fun s => if s = "ARR" then some (.arr []) else none
    mkdirFails := fun _ => false
    writeFails := fun _ => false }

/-- C6, counterexample: a successfully parsed payload that is a JSON
array has no `Covers` field, so the claim predicts `True` with zero
downloads; but the code calls `.get` on the parsed value, and a
non-dict payload raises AttributeError out of `download_covers`
instead of returning. -/
theorem C6_counterexample :
    envArrPayload.parseJson "ARR" = some (.arr []) ∧
    download_covers envArrPayload "T" FS.empty = .error .attributeError ∧
    ¬∃ fs2, download_covers envArrPayload "T" FS.empty = .ok (true, fs2) := by
  refine ⟨rfl, rfl, ?_⟩
  rintro ⟨fs2, hfs⟩
  rw [show download_covers envArrPayload "T" FS.empty = .error .attributeError from rfl] at hfs
  exact Except.noConfusion hfs

/-- C6, amended: for every successfully parsed metadata payload that
is a JSON OBJECT whose list field (`Covers` / `MediaIDS`) is absent,
not a list, or empty, the phase returns true with zero downloads
dispatched, and for covers no `covers/` subdirectory is created; and a
MediaIDS entry that is an object whose `Updates` field is absent or
not a list contributes zero download tasks, the phase still returning
true when no task results.  (The object provisos are forced: a
non-object payload or entry makes the code raise AttributeError.)  The
metadata save must succeed in creating `BASE_DIR/<titleId>` (its
failure raises, see C9). -/
theorem C6_amended_holds (env : Env) (t : String) (fs : FS) :
    (∀ (rc : Response) (flds : List (String × Json)),
      (make_request (env.net (coverInfoUrl t))).2 = some rc →
      env.parseJson rc.body = some (.obj flds) →
      env.mkdirFails [BASE_DIR, t] = false →
      zeroItems ((jLookup flds "Covers").getD (.arr [])) = true →
      ∃ fs2, download_covers env t fs = .ok (true, fs2) ∧
        (([BASE_DIR, t, "covers"] ∈ fs2.dirs) ↔ ([BASE_DIR, t, "covers"] ∈ fs.dirs)))
    ∧ (∀ (ru : Response) (flds : List (String × Json)),
      (make_request (env.net (updateInfoUrl t))).2 = some ru →
      env.parseJson ru.body = some (.obj flds) →
      env.mkdirFails [BASE_DIR, t] = false →
      zeroItems ((jLookup flds "MediaIDS").getD (.arr [])) = true →
      ∃ fs2, download_updates env t fs = .ok (true, fs2))
    ∧ (∀ (ru : Response) (flds : List (String × Json)) (medias : List Json),
      (make_request (env.net (updateInfoUrl t))).2 = some ru →
      env.parseJson ru.body = some (.obj flds) →
      env.mkdirFails [BASE_DIR, t] = false →
      (jLookup flds "MediaIDS").getD (.arr []) = .arr medias →
      (∀ m ∈ medias, ∃ mf, m = Json.obj mf ∧
        zeroItems ((jLookup mf "Updates").getD (.arr [])) = true) →
      collectUpdateTasks medias = .ok [] ∧
      ∃ fs2, download_updates env t fs = .ok (true, fs2)) := by
  refine ⟨?_, ?_, ?_⟩
  · intro rc flds hc hp hm hz
    obtain ⟨saveOps, hsave, hmk⟩ := save_json_ok env t (.obj flds) "covers" hm
    have hget : pyGetD (Json.obj flds) "Covers" (.arr []) =
        .ok ((jLookup flds "Covers").getD (.arr [])) := rfl
    have hphase : cover_phase env t = .ok (true, saveOps) := by
      rw [cover_phase, hc]
      simp only [hp, hsave, hget]
      cases hcv : (jLookup flds "Covers").getD (.arr []) with
      | arr xs =>
        rw [hcv] at hz
        simp only [zeroItems, List.isEmpty_iff] at hz
        subst hz
        rfl
      | null => rfl
      | bool b => rfl
      | num n => rfl
      | str s => rfl
      | obj fields => rfl
    refine ⟨applyOps fs saveOps, ?_, ?_⟩
    · rw [download_covers, hphase]
      rfl
    · rw [mem_dirs_applyOps]
      constructor
      · rintro (hmem | ⟨q, hq, hpq⟩)
        · exact hmem
        · rw [hmk q hq] at hpq
          exact absurd hpq (covers_dir_outside_base t)
      · exact Or.inl
  · intro ru flds hu hp hm hz
    obtain ⟨saveOps, hsave, _⟩ := save_json_ok env t (.obj flds) "updates" hm
    have hget : pyGetD (Json.obj flds) "MediaIDS" (.arr []) =
        .ok ((jLookup flds "MediaIDS").getD (.arr [])) := rfl
    have hphase : update_phase env t = .ok (true, saveOps) := by
      rw [update_phase, hu]
      simp only [hp, hsave, hget]
      cases hcv : (jLookup flds "MediaIDS").getD (.arr []) with
      | arr xs =>
        rw [hcv] at hz
        simp only [zeroItems, List.isEmpty_iff] at hz
        subst hz
        rfl
      | null => rfl
      | bool b => rfl
      | num n => rfl
      | str s => rfl
      | obj fields => rfl
    exact ⟨applyOps fs saveOps, by rw [download_updates, hphase]; rfl⟩
  · intro ru flds medias hu hp hm hmedia hobj
    obtain ⟨saveOps, hsave, _⟩ := save_json_ok env t (.obj flds) "updates" hm
    have hget : pyGetD (Json.obj flds) "MediaIDS" (.arr []) =
        .ok ((jLookup flds "MediaIDS").getD (.arr [])) := rfl
    have hcoll := collectUpdateTasks_nil_of_zero medias hobj
    refine ⟨hcoll, ?_⟩
    have hphase : update_phase env t = .ok (true, saveOps) := by
      rw [update_phase, hu]
      simp only [hp, hsave, hget, hmedia]
      cases medias with
      | nil => rfl
      | cons m ms =>
        rw [show collectUpdateTasks (m :: ms) = .ok [] from hcoll]
        rfl
    exact ⟨applyOps fs saveOps, by rw [download_updates, hphase]; rfl⟩

/-- An environment whose update metadata has one media entry (an
object) with no `Updates` field at all. -/
def envMediaNoUpdates : Env :=
  { net := fun _ _ => .response ⟨200, [], "M"⟩
    parseJson := fun s =>
      if s = "M" then some (.obj [("MediaIDS", .arr [.obj [("MediaID", .str "10")]])])
      else none
    mkdirFails := fun _ => false
    writeFails := fun _ => false }

/-- C6 witness: empty `Covers` gives true and creates no covers
directory; empty `MediaIDS` gives true; one media entry without an
`Updates` list contributes zero tasks and the phase returns true. -/
theorem C6_witness :
    (∃ fs2, download_covers envAB "A" FS.empty = .ok (true, fs2) ∧
      (([BASE_DIR, "A", "covers"] ∈ fs2.dirs) ↔
        ([BASE_DIR, "A", "covers"] ∈ FS.empty.dirs))) ∧
    (∃ fs2, download_updates envAB "A" FS.empty = .ok (true, fs2)) ∧
    (collectUpdateTasks [.obj [("MediaID", .str "10")]] = .ok [] ∧
      ∃ fs2, download_updates envMediaNoUpdates "M" FS.empty = .ok (true, fs2)) := by
  refine ⟨?_, ?_, ?_⟩
  · exact (C6_amended_holds envAB "A" FS.empty).1 ⟨200, [], "EMPTY"⟩
      [("Covers", .arr []), ("MediaIDS", .arr [])] rfl rfl rfl rfl
  · exact (C6_amended_holds envAB "A" FS.empty).2.1 ⟨200, [], "EMPTY"⟩
      [("Covers", .arr []), ("MediaIDS", .arr [])] rfl rfl rfl rfl
  · exact (C6_amended_holds envMediaNoUpdates "M" FS.empty).2.2 ⟨200, [], "M"⟩
      [("MediaIDS", .arr [.obj [("MediaID", .str "10")]])]
      [.obj [("MediaID", .str "10")]] rfl rfl rfl rfl
      (by
        intro m hm
        rw [List.mem_singleton] at hm
        subst hm
        exact ⟨[("MediaID", .str "10")], rfl, rfl⟩)

/-- C7: a task whose descriptor (a JSON object) is missing its
identifying fields — no truthy `CoverID` for a cover; no truthy
`MediaID`, no truthy `TitleUpdateID`, or a missing/None `Version` for
an update — is skipped: it returns true (counted as success, so it
cannot fail the phase by itself), requests no URL, and performs no
filesystem operation. -/
theorem C7_degenerate_skipped :
    (∀ (env : Env) (t : String) (flds : List (String × Json)),
      optTruthy (jLookup flds "CoverID") = false →
      download_single_cover env t (.obj flds) = (.ok true, [], []))
    ∧ (∀ (env : Env) (t : String) (mf uf : List (String × Json)),
        (optTruthy (jLookup mf "MediaID") = false ∨
         optTruthy (jLookup uf "TitleUpdateID") = false ∨
         isPyNone (jLookup uf "Version") = true) →
        download_single_update env t (.obj mf) (.obj uf) = (.ok true, [], [])) := by
  constructor
  · intro env t flds h
    rw [download_single_cover]
    simp [pyGetOpt, h]
  · intro env t mf uf h
    rw [download_single_update]
    rcases h with h | h | h <;> simp [pyGetOpt, h]

/-- C7 witness: an empty cover descriptor is skipped as success with
no request; an update descriptor with media id but no Version is
skipped as success with no request. -/
theorem C7_witness :
    download_single_cover envAB "T" (.obj []) = (.ok true, [], []) ∧
    download_single_update envAB "T" (.obj [("MediaID", .str "10")])
      (.obj [("TitleUpdateID", .str "t1")]) = (.ok true, [], []) :=
  ⟨C7_degenerate_skipped.1 envAB "T" [] rfl,
   C7_degenerate_skipped.2 envAB "T" [("MediaID", .str "10")] [("TitleUpdateID", .str "t1")]
     (Or.inr (Or.inr rfl))⟩

/-! ## Lemmas about the filename regex and helpers for C8 -/

lemma all_mono {p q : Char → Bool} {l : List Char} (h : l.all p = true)
    (himp : ∀ c, p c = true → q c = true) : l.all q = true := by
  rw [List.all_eq_true] at h ⊢
  exact fun x hx => himp x (h x hx)

lemma dropWhile_eq_self_of_all {p : Char → Bool} {l : List Char}
    (h : l.all (fun c => !p c) = true) : l.dropWhile p = l := by
  cases l with
  | nil => rfl
  | cons c cs =>
    rw [List.all_cons, Bool.and_eq_true] at h
    have hc : p c = false := by
      have h1 := h.1
      rwa [Bool.not_eq_true'] at h1
    rw [List.dropWhile_cons, if_neg (by simp [hc])]

lemma trimEnds_eq_self {p : Char → Bool} {l : List Char}
    (h : l.all (fun c => !p c) = true) : trimEnds p l = l := by
  rw [trimEnds, dropWhile_eq_self_of_all h,
    dropWhile_eq_self_of_all (by rwa [List.all_reverse]), List.reverse_reverse]

lemma isEmpty_append_cons (l₁ : List Char) (c : Char) (l₂ : List Char) :
    (l₁ ++ c :: l₂).isEmpty = false := by
  cases l₁ <;> rfl

lemma isPrefixOf_cons_false {c : Char} (X : List Char) (hc : (c != 'f') = true) :
    filenamePat.isPrefixOf (c :: X) = false := by
  have hne : ('f' == c) = false := by
    rw [bne_iff_ne] at hc
    exact beq_eq_false_iff_ne.mpr (fun h => hc h.symm)
  rw [show filenamePat = 'f' :: "ilename=".data from rfl]
  simp [List.isPrefixOf, hne]

lemma afterFirstPat_append (rest : List Char) :
    ∀ pre : List Char, pre.all (fun c => c != 'f') = true →
      afterFirstPat (pre ++ (filenamePat ++ rest)) = some rest := by
  intro pre
  induction pre with
  | nil =>
    intro _
    rw [List.nil_append]
    have hpre : filenamePat.isPrefixOf (filenamePat ++ rest) = true :=
      List.isPrefixOf_iff_prefix.mpr (List.prefix_append _ _)
    cases hfp : filenamePat ++ rest with
    | nil => exact absurd (List.append_eq_nil.mp hfp).1 (by decide)
    | cons c cs =>
      rw [hfp] at hpre
      rw [afterFirstPat, if_pos hpre, ← hfp, List.drop_left]
  | cons c pre2 ih =>
    intro h
    rw [List.all_cons, Bool.and_eq_true] at h
    rw [List.cons_append, afterFirstPat,
      if_neg (by simp [isPrefixOf_cons_false _ h.1])]
    exact ih h.2

lemma takeWhile_append_stop {p : Char → Bool} {l : List Char} (h : l.all p = true)
    {c : Char} (hc : p c = false) (rest : List Char) :
    (l ++ c :: rest).takeWhile p = l := by
  induction l with
  | nil => simp [List.takeWhile_cons, hc]
  | cons x xs ih =>
    rw [List.all_cons, Bool.and_eq_true] at h
    rw [List.cons_append, List.takeWhile_cons, if_pos h.1, ih h.2]

lemma extract_filename_quoted (pre f : String)
    (hpre : pre.data.all (fun c => c != 'f') = true)
    (hne : f.data ≠ [])
    (hf : f.data.all (fun c => !isPyWs c && c != '"') = true) :
    extract_filename (some (pre ++ "filename=\"" ++ f ++ "\"")) = some f := by
  have hdata : (pre ++ "filename=\"" ++ f ++ "\"").data =
      pre.data ++ (filenamePat ++ ('"' :: (f.data ++ ['"']))) := by
    rw [String.data_append, String.data_append, String.data_append]
    rw [show ("filename=\"").data = filenamePat ++ ['"'] from rfl,
        show ("\"").data = ['"'] from rfl]
    simp [List.append_assoc]
  have hfq : f.data.all (fun c => c != '"') = true :=
    all_mono hf (fun c hc => ((Bool.and_eq_true ..).mp hc).2)
  have hfw : f.data.all (fun c => !isPyWs c) = true :=
    all_mono hf (fun c hc => ((Bool.and_eq_true ..).mp hc).1)
  have hcap : regexCapture (pre ++ "filename=\"" ++ f ++ "\"").data =
      some (f.data ++ ['"']) := by
    rw [hdata, regexCapture, afterFirstPat_append _ _ hpre]
    simp [isEmpty_append_cons]
  rw [extract_filename]
  rw [if_neg (by rw [hdata,
    show filenamePat ++ ('"' :: (f.data ++ ['"'])) =
      'f' :: ("ilename=".data ++ ('"' :: (f.data ++ ['"']))) from rfl,
    isEmpty_append_cons]; simp)]
  rw [hcap]
  have ht1 : trimEnds isPyWs (f.data ++ ['"']) = f.data ++ ['"'] := by
    refine trimEnds_eq_self ?_
    rw [List.all_append]
    rw [hfw]
    rfl
  have ht2 : trimEnds (fun c => c == '"') (f.data ++ ['"']) = f.data := by
    rw [trimEnds]
    have hd1 : (f.data ++ ['"']).dropWhile (fun c => c == '"') = f.data ++ ['"'] := by
      cases hfd : f.data with
      | nil => exact absurd hfd hne
      | cons x xs =>
        have hx : (x == '"') = false := by
          rw [hfd] at hfq
          rw [List.all_cons, Bool.and_eq_true] at hfq
          have := hfq.1
          rwa [bne_iff_ne, ← beq_eq_false_iff_ne] at this
        rw [List.cons_append, List.dropWhile_cons, if_neg (by simp [hx])]
    have hd2 : (f.data ++ ['"']).reverse = '"' :: f.data.reverse := by
      simp
    have hd3 : ('"' :: f.data.reverse).dropWhile (fun c => c == '"') = f.data.reverse := by
      rw [List.dropWhile_cons, if_pos (show ('"' == '"') = true from rfl)]
      refine dropWhile_eq_self_of_all ?_
      rw [List.all_reverse]
      exact all_mono hfq (fun c hc => by rwa [bne] at hc)
    rw [hd1, hd2, hd3, List.reverse_reverse]
  show some (String.mk (trimEnds (fun c => c == '"')
      (trimEnds isPyWs (f.data ++ ['"'])))) = some f
  rw [ht1, ht2]

lemma extract_filename_unquoted (pre f : String)
    (hpre : pre.data.all (fun c => c != 'f') = true)
    (hne : f.data ≠ [])
    (hf : f.data.all (fun c => !isPyWs c && c != '"') = true) :
    extract_filename (some (pre ++ "filename=" ++ f)) = some f := by
  have hdata : (pre ++ "filename=" ++ f).data =
      pre.data ++ (filenamePat ++ f.data) := by
    rw [String.data_append, String.data_append,
      show ("filename=").data = filenamePat from rfl]
    simp [List.append_assoc]
  have hfq : f.data.all (fun c => c != '"') = true :=
    all_mono hf (fun c hc => ((Bool.and_eq_true ..).mp hc).2)
  have hfw : f.data.all (fun c => !isPyWs c) = true :=
    all_mono hf (fun c hc => ((Bool.and_eq_true ..).mp hc).1)
  have hcap : regexCapture (pre ++ "filename=" ++ f).data = some f.data := by
    rw [hdata, regexCapture, afterFirstPat_append _ _ hpre]
    cases hfd : f.data with
    | nil => exact absurd hfd hne
    | cons x xs =>
      have hx : (x == '"') = false := by
        rw [hfd] at hfq
        rw [List.all_cons, Bool.and_eq_true] at hfq
        have := hfq.1
        rwa [bne_iff_ne, ← beq_eq_false_iff_ne] at this
      simp [hx]
  rw [extract_filename]
  rw [if_neg (by rw [hdata,
    show filenamePat ++ f.data = 'f' :: ("ilename=".data ++ f.data) from rfl,
    isEmpty_append_cons]; simp)]
  rw [hcap]
  have ht1 : trimEnds isPyWs f.data = f.data := trimEnds_eq_self hfw
  have ht2 : trimEnds (fun c => c == '"') f.data = f.data :=
    trimEnds_eq_self (all_mono hfq (fun c hc => by rwa [bne] at hc))
  show some (String.mk (trimEnds (fun c => c == '"') (trimEnds isPyWs f.data))) = some f
  rw [ht1, ht2]

/-- C8: the destination filename prefers the Content-Disposition
name — the regex accepts `filename="..."` and `filename=...` and the
surrounding quotes are trimmed; without it a cover falls back to
`<CoverID>.<MIME subtype>` (subtype `jpg` when the Content-Type has no
slash) and an update to `update_<TitleUpdateID>.bin`; and the update
destination for titleId 555308C5, mediaId "10", version 3, filename
patch.bin is `unityscrape/555308C5/10/updateversion3/patch.bin`. -/
theorem C8_filenames_and_paths :
    (∀ pre f : String, pre.data.all (fun c => c != 'f') = true →
      f.data ≠ [] →
      f.data.all (fun c => !isPyWs c && c != '"') = true →
      extract_filename (some (pre ++ "filename=\"" ++ f ++ "\"")) = some f ∧
      extract_filename (some (pre ++ "filename=" ++ f)) = some f)
    ∧ (∀ (idStr : String) (hs : List (String × String)) (f : String),
        extract_filename (headerGet hs "content-disposition") = some f →
        f.data.isEmpty = false →
        coverFilename idStr hs = f ∧ updateFilename idStr hs = f)
    ∧ (∀ (idStr : String) (hs : List (String × String)),
        extract_filename (headerGet hs "content-disposition") = none →
        coverFilename idStr hs = idStr ++ "." ++ mimeExt (headerGetD hs "Content-Type" "") ∧
        updateFilename idStr hs = "update_" ++ idStr ++ ".bin")
    ∧ (∀ a b : String, b.data.all (fun c => c != '/') = true →
        mimeExt (a ++ "/" ++ b) = b)
    ∧ mimeExt "" = "jpg"
    ∧ joinPath (updateOutDir "555308C5" (.str "10") (.num 3) ++ ["patch.bin"]) =
        "unityscrape/555308C5/10/updateversion3/patch.bin" := by
  refine ⟨?_, ?_, ?_, ?_, by decide, by decide⟩
  · intro pre f hpre hne hf
    exact ⟨extract_filename_quoted pre f hpre hne hf,
           extract_filename_unquoted pre f hpre hne hf⟩
  · intro idStr hs f hext hne
    constructor
    · rw [coverFilename, hext]
      show (if f.data.isEmpty = true then
        idStr ++ "." ++ mimeExt (headerGetD hs "Content-Type" "") else f) = f
      rw [hne]
      simp
    · rw [updateFilename, hext]
      show (if f.data.isEmpty = true then "update_" ++ idStr ++ ".bin" else f) = f
      rw [hne]
      simp
  · intro idStr hs hext
    exact ⟨by rw [coverFilename, hext], by rw [updateFilename, hext]⟩
  · intro a b hb
    have hdata : (a ++ "/" ++ b).data = a.data ++ '/' :: b.data := by
      rw [String.data_append, String.data_append, show ("/").data = ['/'] from rfl]
      simp
    rw [mimeExt, hdata, if_pos ?hc]
    case hc =>
      have hm : '/' ∈ a.data ++ '/' :: b.data :=
        List.mem_append_right _ (List.mem_cons_self _ _)
      exact List.elem_iff.mpr hm
    have hrev : (a.data ++ '/' :: b.data).reverse =
        b.data.reverse ++ '/' :: a.data.reverse := by
      simp
    rw [hrev, takeWhile_append_stop (by rwa [List.all_reverse]) (by rfl) _,
      List.reverse_reverse]

/-- C8 witness: the quoted and unquoted header patterns at a concrete
header; fallback names; the slash and no-slash MIME cases; and the
concrete update path. -/
theorem C8_witness :
    (extract_filename (some ("attachment; " ++ "filename=\"" ++ "front.jpg" ++ "\"")) =
        some "front.jpg" ∧
      extract_filename (some ("attachment; " ++ "filename=" ++ "front.jpg")) =
        some "front.jpg") ∧
    (coverFilename "c1" [("Content-Disposition", "attachment; filename=x.png")] = "x.png" ∧
      updateFilename "c1" [("Content-Disposition", "attachment; filename=x.png")] = "x.png") ∧
    (coverFilename "c1" [("Content-Type", "image/png")] =
        "c1" ++ "." ++ mimeExt (headerGetD [("Content-Type", "image/png")] "Content-Type" "") ∧
      updateFilename "t9" [("Content-Type", "image/png")] = "update_" ++ "t9" ++ ".bin") ∧
    mimeExt ("image" ++ "/" ++ "png") = "png" :=
  ⟨C8_filenames_and_paths.1 "attachment; " "front.jpg" (by decide) (by decide) (by decide),
   C8_filenames_and_paths.2.1 "c1" [("Content-Disposition", "attachment; filename=x.png")]
     "x.png" (by decide) (by decide),
   C8_filenames_and_paths.2.2.1 "c1" [("Content-Type", "image/png")] (by decide)
     |>.imp id (fun _ => (C8_filenames_and_paths.2.2.1 "t9"
       [("Content-Type", "image/png")] (by decide)).2),
   C8_filenames_and_paths.2.2.2.1 "image" "png" (by decide)⟩

/-! ## C9: metadata persistence failures -/

/-- An environment where creating `unityscrape/T` fails (and the
metadata fetch and parse succeed). -/
def envMkdirFail : Env :=
  { net := fun _ _ => .response ⟨200, [], "OBJ"⟩
    parseJson := fun s => if s = "OBJ" then some (.obj []) else none
    mkdirFails := fun p => p == ["unityscrape", "T"]
    writeFails := fun _ => false }

/-- C9, counterexample: in `_save_json` only the file write sits inside
the try/except — the `mkdir` of `BASE_DIR/<titleId>` is outside it, so
a failure while creating that directory (part of persisting the
metadata snapshot) raises OSError out of `download_covers` instead of
being merely logged. -/
theorem C9_counterexample :
    envMkdirFail.parseJson "OBJ" = some (.obj []) ∧
    download_covers envMkdirFail "T" FS.empty = .error .osError ∧
    ¬∃ b fs2, download_covers envMkdirFail "T" FS.empty = .ok (b, fs2) := by
  refine ⟨rfl, rfl, ?_⟩
  rintro ⟨b, fs2, hfs⟩
  rw [show download_covers envMkdirFail "T" FS.empty = .error .osError from rfl] at hfs
  exact Except.noConfusion hfs

lemma download_single_cover_env_congr (env env2 : Env) (t : String)
    (hn : env2.net = env.net)
    (hw : ∀ p : List String, p.length = 4 → env2.writeFails p = env.writeFails p)
    (c : Json) :
    download_single_cover env2 t c = download_single_cover env t c := by
  rw [download_single_cover, download_single_cover, hn]
  cases pyGetOpt c "CoverID" with
  | error e => rfl
  | ok cid? =>
    dsimp only []
    by_cases hT : (!optTruthy cid?) = true
    · rw [if_pos hT, if_pos hT]
    · rw [if_neg hT, if_neg hT]
      cases (make_request (env.net (coverFetchUrl (pyStr (cid?.getD .null))))).2 with
      | none => rfl
      | some r =>
        dsimp only []
        rw [hw [BASE_DIR, t, "covers", coverFilename (pyStr (cid?.getD .null)) r.headers]
          (by rfl)]

lemma download_single_update_env_congr (env env2 : Env) (t : String)
    (hn : env2.net = env.net)
    (hm : env2.mkdirFails = env.mkdirFails)
    (hw : ∀ p : List String, p.length = 5 → env2.writeFails p = env.writeFails p)
    (m u : Json) :
    download_single_update env2 t m u = download_single_update env t m u := by
  rw [download_single_update, download_single_update, hn, hm]
  cases pyGetOpt m "MediaID" with
  | error e => rfl
  | ok mid? =>
    cases pyGetOpt u "TitleUpdateID" with
    | error e => rfl
    | ok tuid? =>
      cases pyGetOpt u "Version" with
      | error e => rfl
      | ok ver? =>
        dsimp only []
        by_cases hT : (!optTruthy mid? || !optTruthy tuid? || isPyNone ver?) = true
        · rw [if_pos hT, if_pos hT]
        · rw [if_neg hT, if_neg hT]
          cases (make_request (env.net (updateFetchUrl (pyStr (tuid?.getD .null))))).2 with
          | none => rfl
          | some r =>
            dsimp only []
            by_cases hmk :
                env.mkdirFails (updateOutDir t (mid?.getD .null) (ver?.getD .null)) = true
            · rw [if_pos hmk, if_pos hmk]
            · rw [if_neg hmk, if_neg hmk,
                hw (updateOutDir t (mid?.getD .null) (ver?.getD .null) ++
                  [updateFilename (pyStr (tuid?.getD .null)) r.headers]) (by rfl)]

lemma save_json_cases (env : Env) (t : String) (p : Json) (k : String) :
    (env.mkdirFails [BASE_DIR, t] = true ∧ save_json env t p k = .error .osError) ∨
    (env.mkdirFails [BASE_DIR, t] = false ∧ ∃ s, save_json env t p k = .ok s) := by
  rw [save_json]
  by_cases hm : env.mkdirFails [BASE_DIR, t] = true
  · exact Or.inl ⟨hm, by rw [if_pos hm]⟩
  · refine Or.inr ⟨by simpa using hm, ?_⟩
    rw [if_neg hm]
    by_cases hw : env.writeFails ([BASE_DIR, t] ++ [k ++ "_data.json"]) = true
    · exact ⟨_, by rw [if_pos hw]⟩
    · exact ⟨_, by rw [if_neg hw]⟩

/-- C9, amended: a failure while WRITING the metadata snapshot file
(`<titleId>/covers_data.json` / `<titleId>/updates_data.json`) is only
logged and never affects the resolve: the entire observable result of
each phase — its returned boolean, or which exception escapes — is
unchanged under arbitrary modification of the write-failure behaviour
at those two paths.  By C9's counterexample this cannot be extended to
the directory creation inside `_save_json`, which raises on failure. -/
theorem C9_amended_holds (env env2 : Env) (t : String)
    (hn : env2.net = env.net) (hp : env2.parseJson = env.parseJson)
    (hm : env2.mkdirFails = env.mkdirFails)
    (hw : ∀ p : List String, p ≠ [BASE_DIR, t, "covers_data.json"] →
          p ≠ [BASE_DIR, t, "updates_data.json"] →
          env2.writeFails p = env.writeFails p) :
    coversOk env2 t = coversOk env t ∧ updatesOk env2 t = updatesOk env t := by
  have hw4 : ∀ p : List String, p.length = 4 → env2.writeFails p = env.writeFails p := by
    intro p hlen
    refine hw p ?_ ?_ <;> intro hEq <;> rw [hEq] at hlen <;> simp at hlen
  have hw5 : ∀ p : List String, p.length = 5 → env2.writeFails p = env.writeFails p := by
    intro p hlen
    refine hw p ?_ ?_ <;> intro hEq <;> rw [hEq] at hlen <;> simp at hlen
  have hworkc : download_single_cover env2 t = download_single_cover env t :=
    funext (download_single_cover_env_congr env env2 t hn hw4)
  have hworku : ∀ m u, download_single_update env2 t m u = download_single_update env t m u :=
    download_single_update_env_congr env env2 t hn hm hw5
  constructor
  · rw [coversOk, coversOk, cover_phase, cover_phase, hn, hp, hworkc, hm]
    cases (make_request (env.net (coverInfoUrl t))).2 with
    | none => rfl
    | some resp =>
      dsimp only []
      cases env.parseJson resp.body with
      | none => rfl
      | some coversData =>
        dsimp only []
        have hm2 : env2.mkdirFails [BASE_DIR, t] = env.mkdirFails [BASE_DIR, t] := by rw [hm]
        rcases save_json_cases env t coversData "covers" with ⟨hmk, herr1⟩ | ⟨hmk, s1, hok1⟩
        · have herr2 : save_json env2 t coversData "covers" = .error .osError := by
            rcases save_json_cases env2 t coversData "covers" with ⟨_, h⟩ | ⟨hf, _⟩
            · exact h
            · rw [hm2, hmk] at hf
              simp at hf
          rw [herr1, herr2]
        · obtain ⟨s2, hok2⟩ : ∃ s, save_json env2 t coversData "covers" = .ok s := by
            rcases save_json_cases env2 t coversData "covers" with ⟨hf, _⟩ | ⟨_, hs⟩
            · rw [hm2, hmk] at hf
              simp at hf
            · exact hs
          rw [hok1, hok2]
          cases pyGetD coversData "Covers" (.arr []) with
          | error e => rfl
          | ok cv =>
            dsimp only []
            cases cv with
            | arr l =>
              dsimp only []
              by_cases hl : l.isEmpty = true
              · rw [if_pos hl, if_pos hl]
                rfl
              · rw [if_neg hl, if_neg hl]
                by_cases hmc : env.mkdirFails [BASE_DIR, t, "covers"] = true
                · rw [if_pos hmc, if_pos hmc]
                · rw [if_neg hmc, if_neg hmc]
                  cases checkCoverIdents l with
                  | error e => rfl
                  | ok _ => rfl
            | null => rfl
            | bool b => rfl
            | num n => rfl
            | str s => rfl
            | obj fields => rfl
  · have hworku2 : (fun p : Json × Json => download_single_update env2 t p.1 p.2) =
        (fun p : Json × Json => download_single_update env t p.1 p.2) :=
      funext (fun p => hworku p.1 p.2)
    rw [updatesOk, updatesOk, update_phase, update_phase, hn, hp, hworku2]
    cases (make_request (env.net (updateInfoUrl t))).2 with
    | none => rfl
    | some resp =>
      dsimp only []
      cases env.parseJson resp.body with
      | none => rfl
      | some updatesData =>
        dsimp only []
        have hm2 : env2.mkdirFails [BASE_DIR, t] = env.mkdirFails [BASE_DIR, t] := by rw [hm]
        rcases save_json_cases env t updatesData "updates" with ⟨hmk, herr1⟩ | ⟨hmk, s1, hok1⟩
        · have herr2 : save_json env2 t updatesData "updates" = .error .osError := by
            rcases save_json_cases env2 t updatesData "updates" with ⟨_, h⟩ | ⟨hf, _⟩
            · exact h
            · rw [hm2, hmk] at hf
              simp at hf
          rw [herr1, herr2]
        · obtain ⟨s2, hok2⟩ : ∃ s, save_json env2 t updatesData "updates" = .ok s := by
            rcases save_json_cases env2 t updatesData "updates" with ⟨hf, _⟩ | ⟨_, hs⟩
            · rw [hm2, hmk] at hf
              simp at hf
            · exact hs
          rw [hok1, hok2]
          cases pyGetD updatesData "MediaIDS" (.arr []) with
          | error e => rfl
          | ok cv =>
            dsimp only []
            cases cv with
            | arr l =>
              dsimp only []
              by_cases hl : l.isEmpty = true
              · rw [if_pos hl, if_pos hl]
                rfl
              · rw [if_neg hl, if_neg hl]
                cases collectUpdateTasks l with
                | error e => rfl
                | ok tasks =>
                  dsimp only []
                  by_cases ht : tasks.isEmpty = true
                  · rw [if_pos ht, if_pos ht]
                    rfl
                  · rw [if_neg ht, if_neg ht]
                    cases checkUpdateIdents tasks with
                    | error e => rfl
                    | ok _ => rfl
            | null => rfl
            | bool b => rfl
            | num n => rfl
            | str s => rfl
            | obj fields => rfl

/-- An environment that fails exactly the two metadata-file writes for
title W, with empty cover and update metadata. -/
def envJsonWriteFail : Env :=
  { net := fun _ _ => .response ⟨200, [], "EMPTY"⟩
    parseJson := fun s =>
      if s = "EMPTY" then some (.obj [("Covers", .arr []), ("MediaIDS", .arr [])]) else none
    mkdirFails := fun _ => false
    writeFails := fun p =>
      p == ["unityscrape", "W", "covers_data.json"] ||
      p == ["unityscrape", "W", "updates_data.json"] }

/-- The same environment with all writes succeeding. -/
def envJsonWriteOk : Env := { envJsonWriteFail with writeFails := fun _ => false }

/-- C9 witness: failing the two metadata writes leaves both phase
results unchanged. -/
theorem C9_witness :
    coversOk envJsonWriteFail "W" = coversOk envJsonWriteOk "W" ∧
    updatesOk envJsonWriteFail "W" = updatesOk envJsonWriteOk "W" :=
  C9_amended_holds envJsonWriteOk envJsonWriteFail "W" rfl rfl rfl
    (by
      intro p h1 h2
      show (p == [BASE_DIR, "W", "covers_data.json"] ||
            p == [BASE_DIR, "W", "updates_data.json"]) = false
      rw [beq_eq_false_iff_ne.mpr h1, beq_eq_false_iff_ne.mpr h2]
      rfl)

/-! ## C10: the covers directory is created before dispatch -/

lemma checkCoverIdents_ok (covers : List Json)
    (h : ∀ c ∈ covers, ∃ cf, c = Json.obj cf) :
    checkCoverIdents covers = .ok () := by
  induction covers with
  | nil => rfl
  | cons c cs ih =>
    obtain ⟨cf, hcf⟩ := h c (List.mem_cons_self _ _)
    subst hcf
    rw [checkCoverIdents]
    show checkCoverIdents cs = .ok ()
    exact ih (fun x hx => h x (List.mem_cons_of_mem _ hx))

/-- C10: whenever the parsed cover metadata is an object with a
non-empty `Covers` list (of object entries) and the two directory
creations succeed, `download_covers` creates `<titleId>/covers/`
before dispatching, so that directory exists in the resulting
filesystem — whatever the dispatched tasks did (no hypothesis
constrains them: every entry may be degenerate and every download may
fail, the returned boolean b being arbitrary). -/
theorem C10_covers_dir_created (env : Env) (t : String) (fs : FS) (rc : Response)
    (flds : List (String × Json)) (c0 : Json) (cs : List Json)
    (hc : (make_request (env.net (coverInfoUrl t))).2 = some rc)
    (hp : env.parseJson rc.body = some (.obj flds))
    (hm1 : env.mkdirFails [BASE_DIR, t] = false)
    (hm2 : env.mkdirFails [BASE_DIR, t, "covers"] = false)
    (hcov : (jLookup flds "Covers").getD (.arr []) = .arr (c0 :: cs))
    (hobj : ∀ c ∈ c0 :: cs, ∃ cf, c = Json.obj cf) :
    ∃ b fs2, download_covers env t fs = .ok (b, fs2) ∧
      [BASE_DIR, t, "covers"] ∈ fs2.dirs := by
  obtain ⟨saveOps, hsave, _⟩ := save_json_ok env t (.obj flds) "covers" hm1
  have hidents := checkCoverIdents_ok (c0 :: cs) hobj
  have hphase : cover_phase env t =
      .ok (aggregate (((c0 :: cs).map (download_single_cover env t)).map (·.1)),
           saveOps ++ .mkdir [BASE_DIR, t, "covers"] ::
             ((c0 :: cs).map (download_single_cover env t)).flatMap (·.2.2)) := by
    rw [cover_phase, hc]
    simp only [hp, hsave,
      show pyGetD (Json.obj flds) "Covers" (.arr []) =
        .ok ((jLookup flds "Covers").getD (.arr [])) from rfl, hcov]
    rw [if_neg (by simp), if_neg (by simp [hm2]), hidents]
  refine ⟨_, _, by rw [download_covers, hphase]; rfl, ?_⟩
  rw [mem_dirs_applyOps]
  refine Or.inr ⟨[BASE_DIR, t, "covers"], ?_, ?_⟩
  · rw [List.mem_append]
    exact Or.inr (List.mem_cons_self _ _)
  · rw [prefixesOf_triple]
    simp

/-- An environment with one cover entry that is degenerate (an object
with no CoverID): the entry is skipped, nothing is downloaded, yet the
covers directory must exist afterwards. -/
def envOneDegenerateCover : Env :=
  { net := fun _ _ => .response ⟨200, [], "C1"⟩
    parseJson := fun s =>
      if s = "C1" then some (.obj [("Covers", .arr [.obj []])]) else none
    mkdirFails := fun _ => false
    writeFails := fun _ => false }

/-- C10 witness: with one degenerate cover entry the phase returns and
`unityscrape/AB/covers` exists in the final filesystem. -/
theorem C10_witness :
    ∃ b fs2, download_covers envOneDegenerateCover "AB" FS.empty = .ok (b, fs2) ∧
      [BASE_DIR, "AB", "covers"] ∈ fs2.dirs :=
  C10_covers_dir_created envOneDegenerateCover "AB" FS.empty ⟨200, [], "C1"⟩
    [("Covers", .arr [.obj []])] (.obj []) [] rfl rfl rfl rfl rfl
    (by
      intro c hcm
      rw [List.mem_singleton] at hcm
      subst hcm
      exact ⟨[], rfl⟩)

end UnityScraper
